import Mathlib

/-!
Verification development for the scalp-trader signal service.

The Python modules under src/ are shallowly embedded: pure functions become
Lean functions, the in-memory candle store becomes an explicit state record,
wall-clock time and the network are explicit parameters, and Python floats
are modelled as exact rationals.  Fallible code (code that can raise) returns
an `Except`.  Python negative-index slicing such as xs[-k:] is written as
`List.drop (xs.length - k)` with the same guards the source carries.
-/

/-- Candle record from src/cache.py (`Candle` dataclass): one candlestick. -/
structure Candle where
  timestamp : ℕ
  open_ : ℚ
  high : ℚ
  low : ℚ
  close : ℚ
  volume : ℚ
  is_closed : Bool
deriving DecidableEq, Repr

/-- Percentage change from src/indicators.py `calculate_percentage_change`:
zero when the old price is zero, else ((new - old) / old) * 100. -/
def calculate_percentage_change (old_price new_price : ℚ) : ℚ :=
  if old_price = 0 then 0 else (new_price - old_price) / old_price * 100

/-- Ratio from src/indicators.py `calculate_ratio`: none when the denominator
is zero. -/
def calculate_ratio (numerator denominator : ℚ) : Option ℚ :=
  if denominator = 0 then none else some (numerator / denominator)

/-- SMA from src/indicators.py `calculate_sma`: none with fewer than `period`
values, else the mean of the last `period` values. -/
def calculate_sma (values : List ℚ) (period : ℕ) : Option ℚ :=
  if values.length < period then none
  else some ((values.drop (values.length - period)).sum / period)

/-- Deltas of consecutive closes, src/indicators.py `calculate_rsi` lines
44-46: changes[i] = closes[i+1] - closes[i]. -/
def rsi_changes (closes : List ℚ) : List ℚ :=
  List.zipWith (fun a b => a - b) (closes.drop 1) closes

/-- Wilder smoothing, src/indicators.py `calculate_rsi` lines 52-59: seed with
the plain mean of the first `period` values, then
avg = (avg * (period - 1) + value) / period for each later value. -/
def wilder_avg (period : ℕ) (vals : List ℚ) : ℚ :=
  (vals.drop period).foldl
    (fun avg v => (avg * ((period : ℚ) - 1) + v) / period)
    ((vals.take period).sum / period)

/-- RSI from src/indicators.py `calculate_rsi`: none with fewer than
period + 1 closes; else Wilder averages of gains and losses, RSI = 100 when
the final average loss is zero, else 100 - 100 / (1 + gain / loss). -/
def calculate_rsi (closes : List ℚ) (period : ℕ) : Option ℚ :=
  if closes.length < period + 1 then none
  else
    let changes := rsi_changes closes
    let gains := changes.map (fun c => max 0 c)
    let losses := changes.map (fun c => |min 0 c|)
    let avg_gain := wilder_avg period gains
    let avg_loss := wilder_avg period losses
    if avg_loss = 0 then some 100
    else some (100 - 100 / (1 + avg_gain / avg_loss))

/-- Uppercase normalization standing for the Python str.upper() calls the
source applies at every symbol boundary (ASCII symbols only in this system). -/
def py_upper (s : String) : String := ⟨s.data.map Char.toUpper⟩

/-- Python slice xs[-k:]: the last k elements for 1 ≤ k ≤ len, the whole list
for k = 0 (since xs[-0:] is xs[0:]) and for k > len. -/
def py_slice_last (xs : List Candle) (k : ℕ) : List Candle :=
  if k = 0 then xs else xs.drop (xs.length - k)

/-- Capacity of the 1-minute rolling buffers, src/config.py line 60. -/
def CANDLES_1M_BUFFER : ℕ := 100

/-- Capacity of the 15-minute rolling buffers, src/config.py line 61. -/
def CANDLES_15M_BUFFER : ℕ := 50

/-- Append on a Python collections.deque with maxlen C: the leftmost entry is
evicted when the deque is full. -/
def deque_append (C : ℕ) (l : List Candle) (c : Candle) : List Candle :=
  (l ++ [c]).drop (l.length + 1 - C)

/-- State of src/cache.py `CandleCache`: per-symbol rolling buffers of closed
candles for both timeframes, the optional in-progress candle per symbol and
timeframe, and the funding-rate map.  A symbol that was never written maps to
an empty buffer, matching the source's get-or-create and "symbol not in
dict" checks.  The last-update timestamps and the lock are not modelled:
evaluation here is of one frozen state. -/
structure CandleCache where
  candles_1m : String → List Candle
  candles_15m : String → List Candle
  current_1m : String → Option Candle
  current_15m : String → Option Candle
  funding_rates : String → Option ℚ

/-- Empty cache, src/cache.py CandleCache.__init__. -/
def emptyCache : CandleCache :=
  ⟨fun _ => [], fun _ => [], fun _ => none, fun _ => none, fun _ => none⟩

/-- src/cache.py `add_candle_1m`: a closed candle is appended to the rolling
1-minute buffer (capacity CANDLES_1M_BUFFER) and the in-progress slot is
cleared; an open candle replaces the in-progress slot. -/
def add_candle_1m (store : CandleCache) (symbol : String) (c : Candle) :
    CandleCache :=
  let s := py_upper symbol
  if c.is_closed then
    { store with
      candles_1m := fun k =>
        if k = s then deque_append CANDLES_1M_BUFFER (store.candles_1m s) c
        else store.candles_1m k,
      current_1m := fun k => if k = s then none else store.current_1m k }
  else
    { store with
      current_1m := fun k => if k = s then some c else store.current_1m k }

/-- src/cache.py `add_candle_15m`: as `add_candle_1m` with capacity
CANDLES_15M_BUFFER. -/
def add_candle_15m (store : CandleCache) (symbol : String) (c : Candle) :
    CandleCache :=
  let s := py_upper symbol
  if c.is_closed then
    { store with
      candles_15m := fun k =>
        if k = s then deque_append CANDLES_15M_BUFFER (store.candles_15m s) c
        else store.candles_15m k,
      current_15m := fun k => if k = s then none else store.current_15m k }
  else
    { store with
      current_15m := fun k => if k = s then some c else store.current_15m k }

/-- src/cache.py `get_candles_1m`: the buffer, restricted to the last `count`
candles when a count is given (Python slice candles[-count:]). -/
def get_candles_1m (store : CandleCache) (symbol : String) (count : Option ℕ) :
    List Candle :=
  let l := store.candles_1m (py_upper symbol)
  match count with
  | none => l
  | some k => py_slice_last l k

/-- src/cache.py `get_candles_15m`. -/
def get_candles_15m (store : CandleCache) (symbol : String) (count : Option ℕ) :
    List Candle :=
  let l := store.candles_15m (py_upper symbol)
  match count with
  | none => l
  | some k => py_slice_last l k

/-- src/cache.py `get_current_price`: the in-progress 1-minute candle's close
when present, else the last closed 1-minute candle's close, else none. -/
def get_current_price (store : CandleCache) (symbol : String) : Option ℚ :=
  let s := py_upper symbol
  match store.current_1m s with
  | some c => some c.close
  | none =>
    match (store.candles_1m s).getLast? with
    | some c => some c.close
    | none => none

/-- src/cache.py `get_closes_1m`. -/
def get_closes_1m (store : CandleCache) (symbol : String) (count : Option ℕ) :
    List ℚ :=
  (get_candles_1m store symbol count).map Candle.close

/-- src/cache.py `get_closes_15m`. -/
def get_closes_15m (store : CandleCache) (symbol : String) (count : Option ℕ) :
    List ℚ :=
  (get_candles_15m store symbol count).map Candle.close

/-- src/cache.py `get_funding_rate`. -/
def get_funding_rate (store : CandleCache) (symbol : String) : Option ℚ :=
  store.funding_rates (py_upper symbol)

/-- Environment-sourced strategy thresholds of src/config.py `Config` with
their documented defaults; the buffer capacities and indicator periods are
plain constants in the source and are modelled as constants here. -/
structure Config where
  btcMinDrop1h : ℚ := -0.5
  underperformanceThreshold : ℚ := -1.0
  underperformanceStrong : ℚ := -2.0
  ratioRsiOversold : ℚ := 35
  fundingRateMin : ℚ := -0.08
  fundingRateSqueezeLow : ℚ := -0.08
  fundingRateSqueezeHigh : ℚ := -0.03
  fundingRateCrowded : ℚ := 0.05
  alertCooldownSeconds : ℚ := 1800

/-- Default configuration (no environment overrides). -/
def defaultConfig : Config := {}

/-- src/config.py RSI_PERIOD. -/
def RSI_PERIOD : ℕ := 14

/-- src/config.py SMA_PERIOD. -/
def SMA_PERIOD : ℕ := 20

/-- Close of candles[-k] when the list has at least k candles, else the
given current price — the pattern
"candles[-k].close if len(candles) >= k else current_price" of
src/btc_stabilization.py lines 90-98 and src/underperformance.py lines 47-55. -/
def close_ago (candles : List Candle) (k : ℕ) (current : ℚ) : ℚ :=
  if k ≤ candles.length then
    (((candles.get? (candles.length - k)).map Candle.close).getD current)
  else current

/-- src/underperformance.py `calculate_price_changes`: the (5m, 15m, 1h)
percentage changes over the last `lookback` 1-minute candles; all zero when
fewer than `lookback` candles exist.  The source reads candles[-1].close
unguarded; that line is reached only with lookback ≥ 1 (every call passes 60),
and the model returns the 0-default in the impossible empty case. -/
def calculate_price_changes (store : CandleCache) (symbol : String)
    (lookback : ℕ) : ℚ × ℚ × ℚ :=
  let candles := get_candles_1m store symbol (some lookback)
  if candles.length < lookback then (0, 0, 0)
  else
    let current := ((candles.getLast?).map Candle.close).getD 0
    let change_5m := calculate_percentage_change (close_ago candles 5 current) current
    let change_15m := calculate_percentage_change (close_ago candles 15 current) current
    let change_1h := calculate_percentage_change (close_ago candles 60 current) current
    (change_5m, change_15m, change_1h)

/-- src/btc_stabilization.py `is_btc_stabilizing` on an explicit candle list:
false with fewer than 5 one-minute candles, else true exactly when the last
candle's low exceeds the lowest low of the four candles before it. -/
def is_btc_stabilizing (candles_1m : List Candle) : Bool :=
  if candles_1m.length < 5 then false
  else
    let recent := candles_1m.drop (candles_1m.length - 5)
    match (recent.dropLast).map Candle.low, recent.getLast? with
    | x :: xs, some lastC => decide (xs.foldl min x < lastC.low)
    | _, _ => false

/-- src/btc_stabilization.py `calculate_btc_changes`: the body repeats
src/underperformance.py `calculate_price_changes` line for line on the
symbol BTCUSDT with lookback 60. -/
def calculate_btc_changes (store : CandleCache) : ℚ × ℚ × ℚ :=
  calculate_price_changes store "BTCUSDT" 60

/-- src/btc_stabilization.py `has_sufficient_btc_dip` with the change given:
the 1-hour change must be at or below the (negative) configured drop. -/
def has_sufficient_btc_dip (cfg : Config) (change_1h : ℚ) : Bool :=
  decide (change_1h ≤ cfg.btcMinDrop1h)

/-- src/btc_stabilization.py `BTCStatus` (the diagnostic message string is
not modelled). -/
structure BTCStatus where
  current_price : ℚ
  change_5m : ℚ
  change_15m : ℚ
  change_1h : ℚ
  is_stabilizing : Bool
  has_sufficient_dip : Bool
deriving DecidableEq, Repr

/-- src/btc_stabilization.py `get_btc_status`: all-zero failing status with
fewer than 5 BTC candles, else price, changes, stabilization and dip flags. -/
def get_btc_status (store : CandleCache) (cfg : Config) : BTCStatus :=
  let candles := get_candles_1m store "BTCUSDT" (some 60)
  if candles.length < 5 then ⟨0, 0, 0, 0, false, false⟩
  else
    let current := ((candles.getLast?).map Candle.close).getD 0
    let ch := calculate_btc_changes store
    ⟨current, ch.1, ch.2.1, ch.2.2,
      is_btc_stabilizing candles, has_sufficient_btc_dip cfg ch.2.2⟩

/-- src/underperformance.py `UnderperformanceResult` (message not modelled). -/
structure UnderperformanceResult where
  altcoin : String
  btc_change_1h : ℚ
  alt_change_1h : ℚ
  spread : ℚ
  is_underperforming : Bool
  is_strong_signal : Bool
deriving DecidableEq, Repr

/-- src/underperformance.py `calculate_underperformance`: spread is the
altcoin 1-hour change minus the BTC 1-hour change (the latter recomputed when
not supplied); underperforming and strong flags compare the spread to the
configured thresholds. -/
def calculate_underperformance (store : CandleCache) (cfg : Config)
    (altcoin : String) (btc_change : Option ℚ) : UnderperformanceResult :=
  let symbol := py_upper altcoin ++ "USDT"
  let alt := calculate_price_changes store symbol 60
  let btc_1h :=
    match btc_change with
    | some b => b
    | none => (calculate_price_changes store "BTCUSDT" 60).2.2
  let spread := alt.2.2 - btc_1h
  { altcoin := altcoin
    btc_change_1h := btc_1h
    alt_change_1h := alt.2.2
    spread := spread
    is_underperforming := decide (spread ≤ cfg.underperformanceThreshold)
    is_strong_signal := decide (spread ≤ cfg.underperformanceStrong) }

/-- src/underperformance.py `get_current_price` (module-level): latest price
of the altcoin's USDT pair. -/
def alt_current_price (store : CandleCache) (altcoin : String) : Option ℚ :=
  get_current_price store (py_upper altcoin ++ "USDT")

/-- State of src/cooldown.py `CooldownManager`: the cooldown window and the
per-asset wall-clock time of the last alert; wall-clock time (time.time())
is an explicit parameter of the operations. -/
structure CooldownManager where
  cooldown_seconds : ℚ
  last_alerts : String → Option ℚ

/-- src/cooldown.py `can_send_alert`: true when no alert is recorded for the
asset or the elapsed time since it reaches the cooldown window. -/
def can_send_alert (m : CooldownManager) (now : ℚ) (altcoin : String) : Bool :=
  match m.last_alerts (py_upper altcoin) with
  | none => true
  | some t => decide (m.cooldown_seconds ≤ now - t)

/-- src/cooldown.py `record_alert`: stamp the current time for the asset. -/
def record_alert (m : CooldownManager) (now : ℚ) (altcoin : String) :
    CooldownManager :=
  { m with last_alerts := fun k =>
      if k = py_upper altcoin then some now else m.last_alerts k }

/-- src/cooldown.py `get_remaining_cooldown`: 0 with no recorded alert, else
max(0, cooldown - elapsed). -/
def get_remaining_cooldown (m : CooldownManager) (now : ℚ) (altcoin : String) :
    ℚ :=
  match m.last_alerts (py_upper altcoin) with
  | none => 0
  | some t => max 0 (m.cooldown_seconds - (now - t))

/-- Exceptions a modelled Python call can raise. -/
inductive PyError where
  | valueError
deriving DecidableEq, Repr

/-- src/ratio_analysis.py `RatioAnalysis` (message not modelled). -/
structure RatioAnalysis where
  altcoin : String
  current_ratio : ℚ
  ratio_rsi : Option ℚ
  ratio_sma : Option ℚ
  ratio_24h_low : Option ℚ
  is_oversold : Bool
  near_24h_low : Bool
deriving DecidableEq, Repr

/-- src/ratio_analysis.py `calculate_ratio_series`: align the two close
series on their common suffix and divide pointwise, skipping pairs whose BTC
close is zero. -/
def calculate_ratio_series (store : CandleCache) (altcoin : String)
    (use_15m : Bool) : List ℚ :=
  let alt_symbol := py_upper altcoin ++ "USDT"
  let alt_closes :=
    if use_15m then get_closes_15m store alt_symbol none
    else get_closes_1m store alt_symbol none
  let btc_closes :=
    if use_15m then get_closes_15m store "BTCUSDT" none
    else get_closes_1m store "BTCUSDT" none
  let min_len := min alt_closes.length btc_closes.length
  if min_len = 0 then []
  else
    let a := alt_closes.drop (alt_closes.length - min_len)
    let b := btc_closes.drop (btc_closes.length - min_len)
    (a.zip b).filterMap (fun p => calculate_ratio p.1 p.2)

/-- src/ratio_analysis.py `get_ratio_rsi`: none with fewer than period + 1
ratio points, else the RSI of the ratio series. -/
def get_ratio_rsi (store : CandleCache) (altcoin : String) (period : ℕ) :
    Option ℚ :=
  let ratios := calculate_ratio_series store altcoin true
  if ratios.length < period + 1 then none
  else calculate_rsi ratios period

/-- src/ratio_analysis.py `get_ratio_sma`. -/
def get_ratio_sma (store : CandleCache) (altcoin : String) (period : ℕ) :
    Option ℚ :=
  calculate_sma (calculate_ratio_series store altcoin true) period

/-- Minimum of a Python list: none on the empty list. -/
def py_min (l : List ℚ) : Option ℚ :=
  match l with
  | [] => none
  | x :: xs => some (xs.foldl min x)

/-- src/ratio_analysis.py `get_ratio_24h_low`: the minimum of the last 96
15-minute ratios, or of all of them when fewer exist, none on no data. -/
def get_ratio_24h_low (store : CandleCache) (altcoin : String) : Option ℚ :=
  let ratios := calculate_ratio_series store altcoin true
  if ratios.length < 96 then py_min ratios
  else py_min (ratios.drop (ratios.length - 96))

/-- src/ratio_analysis.py `get_current_ratio`: current altcoin price over
current BTC price, none when either price is unavailable or BTC is zero. -/
def get_current_ratio (store : CandleCache) (altcoin : String) : Option ℚ :=
  let alt_price := get_current_price store (py_upper altcoin ++ "USDT")
  let btc_price := get_current_price store "BTCUSDT"
  match alt_price, btc_price with
  | some a, some b => calculate_ratio a b
  | _, _ => none

/-- src/ratio_analysis.py `is_near_24h_low`: within `threshold_pct` percent
above the low; false when the low is zero. -/
def is_near_24h_low (current_ratio low_ratio threshold_pct : ℚ) : Bool :=
  if low_ratio = 0 then false
  else decide ((current_ratio - low_ratio) / low_ratio * 100 ≤ threshold_pct)

/-- The RatioAnalysis record src/ratio_analysis.py `analyze_ratio` returns on
its early path, lines 183-193: no current ratio, all flags false. -/
def insufficient_ratio (altcoin : String) : RatioAnalysis :=
  { altcoin := altcoin, current_ratio := 0, ratio_rsi := none,
    ratio_sma := none, ratio_24h_low := none,
    is_oversold := false, near_24h_low := false }

/-- The RatioAnalysis record src/ratio_analysis.py `analyze_ratio` lines
195-204 computes when a current ratio exists: oversold when the ratio RSI is
present and below the configured level, near-low when the 24h low is present
and the current ratio is within 1 percent of it. -/
def analyze_ratio_result (store : CandleCache) (cfg : Config)
    (altcoin : String) (current_ratio : ℚ) : RatioAnalysis :=
  let ratio_rsi := get_ratio_rsi store altcoin RSI_PERIOD
  let ratio_sma := get_ratio_sma store altcoin SMA_PERIOD
  let low := get_ratio_24h_low store altcoin
  { altcoin := altcoin
    current_ratio := current_ratio
    ratio_rsi := ratio_rsi
    ratio_sma := ratio_sma
    ratio_24h_low := low
    is_oversold :=
      match ratio_rsi with
      | some v => decide (v < cfg.ratioRsiOversold)
      | none => false
    near_24h_low :=
      match low with
      | some lo => is_near_24h_low current_ratio lo 1
      | none => false }

/-- src/ratio_analysis.py `analyze_ratio` as the idealized pure computation,
with the debug logging at lines 221-225 read as a no-op: the early
insufficient-data record when no current ratio exists, else the populated
record. -/
def analyze_ratio_pure (store : CandleCache) (cfg : Config)
    (altcoin : String) : RatioAnalysis :=
  match get_current_ratio store altcoin with
  | none => insufficient_ratio altcoin
  | some r => analyze_ratio_result store cfg altcoin r

/-- src/ratio_analysis.py `analyze_ratio` as the source actually executes.
On the populated path the function reaches lines 221-225 before returning:
logger.debug is passed an f-string whose second replacement field is
{ratio_rsi:.1f if ratio_rsi else ...}.  In an f-string everything after the
colon is a format spec, so the conditional expression is a literal format
spec; float.__format__ (and NoneType.__format__) reject it, and the call
raises ValueError (or TypeError) before the populated record is returned.
The early insufficient-data path returns before that line and is unaffected.
The would-be return value of the populated path is `analyze_ratio_result`. -/
def analyze_ratio (store : CandleCache) (_cfg : Config) (altcoin : String) :
    Except PyError RatioAnalysis :=
  match get_current_ratio store altcoin with
  | none => Except.ok (insufficient_ratio altcoin)
  | some _ => Except.error PyError.valueError

/-- src/signal_generator.py `FundingCheck` (message not modelled). -/
structure FundingCheck where
  rate : Option ℚ
  is_valid : Bool
  squeeze_potential : Bool
  crowded_longs : Bool
deriving DecidableEq, Repr

/-- src/signal_generator.py `check_funding_rate`: passing non-blocking result
when no rate is cached; else valid iff the rate exceeds the configured floor,
squeeze iff the rate lies in the configured band, crowded iff it exceeds the
crowded threshold. -/
def check_funding_rate (store : CandleCache) (cfg : Config)
    (altcoin : String) : FundingCheck :=
  let symbol := py_upper altcoin ++ "USDT"
  match get_funding_rate store symbol with
  | none =>
    { rate := none, is_valid := true,
      squeeze_potential := false, crowded_longs := false }
  | some rate =>
    { rate := some rate
      is_valid := decide (cfg.fundingRateMin < rate)
      squeeze_potential :=
        decide (cfg.fundingRateSqueezeLow ≤ rate ∧
                rate ≤ cfg.fundingRateSqueezeHigh)
      crowded_longs := decide (cfg.fundingRateCrowded < rate) }

/-- src/signal_generator.py `LiquidationCheck`.  The optional liquidation
fetcher is an external collaborator; `check_liquidations` output enters the
pipeline as an explicit optional argument. -/
structure LiquidationCheck where
  has_cluster_below : Bool
  has_cluster_above : Bool
  cluster_below_warning : String
  cluster_above_note : String
deriving DecidableEq, Repr

/-- Entry, stop and target levels of src/signal_generator.py
`calculate_levels`. -/
structure Levels where
  entry_low : ℚ
  entry_high : ℚ
  stop_loss : ℚ
  target_1 : ℚ
  target_2 : ℚ
deriving DecidableEq, Repr

/-- src/signal_generator.py `calculate_levels`: entry band down 0.3 percent
from the current price, stop 0.5 percent below the entry low, targets up 1
and 1.5 percent. -/
def calculate_levels (current_price : ℚ) : Levels :=
  let entry_high := current_price
  let entry_low := current_price * 0.997
  { entry_low := entry_low
    entry_high := entry_high
    stop_loss := entry_low * 0.995
    target_1 := current_price * 1.01
    target_2 := current_price * 1.015 }

/-- src/signal_generator.py `Signal` (datetime.utcnow() becomes the explicit
evaluation time). -/
structure Signal where
  altcoin : String
  timestamp : ℚ
  current_price : ℚ
  is_valid : Bool
  is_strong : Bool
  entry_low : ℚ
  entry_high : ℚ
  stop_loss : ℚ
  target_1 : ℚ
  target_2 : ℚ
  btc_status : BTCStatus
  underperformance : UnderperformanceResult
  ratio_analysis : RatioAnalysis
  funding_check : FundingCheck
  liquidation_check : Option LiquidationCheck
  warnings : List String
deriving DecidableEq, Repr

/-- src/signal_generator.py `check_signal`: the staged pipeline.  Stages
fail to "no signal" (ok none); the ratio stage calls `analyze_ratio`, whose
populated path raises (see there), and the raise propagates out of
check_signal.  `liq` stands for the result of check_liquidations (none when
no fetcher is configured). -/
def check_signal (store : CandleCache) (cfg : Config) (cd : CooldownManager)
    (now : ℚ) (liq : Option LiquidationCheck) (altcoin : String) :
    Except PyError (Option Signal) :=
  let alt := py_upper altcoin
  if can_send_alert cd now alt then
    let btc := get_btc_status store cfg
    if btc.has_sufficient_dip then
      if btc.is_stabilizing then
        let underperf := calculate_underperformance store cfg alt (some btc.change_1h)
        if underperf.is_underperforming then
          match analyze_ratio store cfg alt with
          | Except.error e => Except.error e
          | Except.ok ratio =>
            if ratio.is_oversold || ratio.near_24h_low then
              let funding := check_funding_rate store cfg alt
              if funding.is_valid then
                match alt_current_price store alt with
                | none => Except.ok none
                | some price =>
                  let levels := calculate_levels price
                  let warnings :=
                    (if funding.crowded_longs
                     then ["Crowded longs - be cautious"] else []) ++
                    (match liq with
                     | some lc =>
                       (if lc.cluster_below_warning ≠ ""
                        then [lc.cluster_below_warning] else []) ++
                       (if lc.cluster_above_note ≠ ""
                        then [lc.cluster_above_note] else [])
                     | none => [])
                  Except.ok (some
                    { altcoin := alt
                      timestamp := now
                      current_price := price
                      is_valid := true
                      is_strong := underperf.is_strong_signal &&
                        ratio.is_oversold && funding.squeeze_potential
                      entry_low := levels.entry_low
                      entry_high := levels.entry_high
                      stop_loss := levels.stop_loss
                      target_1 := levels.target_1
                      target_2 := levels.target_2
                      btc_status := btc
                      underperformance := underperf
                      ratio_analysis := ratio
                      funding_check := funding
                      liquidation_check := liq
                      warnings := warnings })
              else Except.ok none
            else Except.ok none
        else Except.ok none
      else Except.ok none
    else Except.ok none
  else Except.ok none

/-- Conjunction of the six blocking stages of `check_signal` as predicates of
one frozen state, the ratio stage read through the idealized
`analyze_ratio_pure`. -/
def all_stages_pass (store : CandleCache) (cfg : Config) (cd : CooldownManager)
    (now : ℚ) (altcoin : String) : Bool :=
  let alt := py_upper altcoin
  let btc := get_btc_status store cfg
  let underperf := calculate_underperformance store cfg alt (some btc.change_1h)
  let ratio := analyze_ratio_pure store cfg alt
  let funding := check_funding_rate store cfg alt
  can_send_alert cd now alt &&
  btc.has_sufficient_dip &&
  btc.is_stabilizing &&
  underperf.is_underperforming &&
  (ratio.is_oversold || ratio.near_24h_low) &&
  funding.is_valid

/-- src/price_feed.py MAX_RECONNECT_ATTEMPTS. -/
def MAX_RECONNECT_ATTEMPTS : ℕ := 10

/-- src/price_feed.py INITIAL_RECONNECT_DELAY (seconds). -/
def INITIAL_RECONNECT_DELAY : ℚ := 1

/-- src/price_feed.py MAX_RECONNECT_DELAY (seconds). -/
def MAX_RECONNECT_DELAY : ℚ := 60

/-- src/price_feed.py `_reconnect` together with the counter reset of
`_connect`: `connect_ok k` tells whether the k-th connection attempt of this
recovery succeeds (the network is the only nondeterminism).  The result is
(reconnected, final attempt counter, delays slept in order).  Entering with
the cap reached returns False at once; otherwise the counter increments, the
backoff delay min(INITIAL * 2 ^ (attempt - 1), MAX_DELAY) is slept, and a
successful _connect resets the counter to 0 while a failure recurses. -/
def reconnect_run (connect_ok : ℕ → Bool) (attempts : ℕ) :
    Bool × ℕ × List ℚ :=
  if h : MAX_RECONNECT_ATTEMPTS ≤ attempts then (false, attempts, [])
  else
    let a := attempts + 1
    let delay := min (INITIAL_RECONNECT_DELAY * 2 ^ (a - 1)) MAX_RECONNECT_DELAY
    if connect_ok a then (true, 0, [delay])
    else
      let r := reconnect_run connect_ok a
      (r.1, r.2.1, delay :: r.2.2)
termination_by MAX_RECONNECT_ATTEMPTS - attempts
decreasing_by simp_wf; omega

/-- C4: for every list of 1-minute bars, the stabilization check is false
with fewer than 5 bars, and with at least 5 bars it is true exactly when the
last bar's low strictly exceeds the minimum low of the four bars immediately
preceding it. -/
theorem is_btc_stabilizing_spec (l : List Candle) :
    (l.length < 5 → is_btc_stabilizing l = false) ∧
    (5 ≤ l.length →
      (is_btc_stabilizing l = true ↔
        ∃ a b c d e, l.drop (l.length - 5) = [a, b, c, d, e] ∧
          min (min (min a.low b.low) c.low) d.low < e.low)) := by
  constructor
  · intro h
    simp [is_btc_stabilizing, h]
  · intro h
    have hlen : (l.drop (l.length - 5)).length = 5 := by
      rw [List.length_drop]; omega
    obtain ⟨a, b, c, d, e, hl⟩ :
        ∃ a b c d e, l.drop (l.length - 5) = [a, b, c, d, e] := by
      match hx : l.drop (l.length - 5), hlen with
      | [a, b, c, d, e], _ => exact ⟨a, b, c, d, e, rfl⟩
    have hnot : ¬ l.length < 5 := by omega
    rw [is_btc_stabilizing, if_neg hnot, hl]
    constructor
    · intro hd
      refine ⟨a, b, c, d, e, rfl, ?_⟩
      simpa [List.foldl, min_assoc] using hd
    · rintro ⟨a', b', c', d', e', heq, hlt⟩
      obtain ⟨rfl, rfl, rfl, rfl, rfl⟩ :
          a = a' ∧ b = b' ∧ c = c' ∧ d = d' ∧ e = e' := by
        simpa using heq
      simpa [List.foldl, min_assoc] using hlt

/-- Example from the spec: lows [10, 9, 11, 8, 8.5] stabilize, lows
[10, 9, 11, 8, 7] do not. -/
example :
    is_btc_stabilizing
      [⟨0, 0, 0, 10, 0, 0, true⟩, ⟨0, 0, 0, 9, 0, 0, true⟩,
       ⟨0, 0, 0, 11, 0, 0, true⟩, ⟨0, 0, 0, 8, 0, 0, true⟩,
       ⟨0, 0, 0, 8.5, 0, 0, true⟩] = true ∧
    is_btc_stabilizing
      [⟨0, 0, 0, 10, 0, 0, true⟩, ⟨0, 0, 0, 9, 0, 0, true⟩,
       ⟨0, 0, 0, 11, 0, 0, true⟩, ⟨0, 0, 0, 8, 0, 0, true⟩,
       ⟨0, 0, 0, 7, 0, 0, true⟩] = false := by
  constructor <;> norm_num [is_btc_stabilizing, List.foldl]

/-- C6: canFire holds exactly when no alert is recorded or the elapsed time
reaches the cooldown window; remaining is max(0, cooldown - elapsed) and 0
with no recorded alert; and immediately after record the asset cannot fire
for any positive cooldown window. -/
theorem cooldown_spec (m : CooldownManager) (now : ℚ) (altcoin : String) :
    (can_send_alert m now altcoin = true ↔
      (m.last_alerts (py_upper altcoin) = none ∨
       ∃ t, m.last_alerts (py_upper altcoin) = some t ∧
         m.cooldown_seconds ≤ now - t)) ∧
    (∀ t, m.last_alerts (py_upper altcoin) = some t →
      get_remaining_cooldown m now altcoin =
        max 0 (m.cooldown_seconds - (now - t))) ∧
    (m.last_alerts (py_upper altcoin) = none →
      get_remaining_cooldown m now altcoin = 0) ∧
    (0 < m.cooldown_seconds →
      can_send_alert (record_alert m now altcoin) now altcoin = false) := by
  refine ⟨?_, ?_, ?_, ?_⟩
  · cases h : m.last_alerts (py_upper altcoin) <;>
      simp [can_send_alert, h]
  · intro t ht
    simp [get_remaining_cooldown, ht]
  · intro h
    simp [get_remaining_cooldown, h]
  · intro h
    simp only [can_send_alert, record_alert, if_pos]
    simp [h.not_le]

/-- Cooldown at a concrete state: with window 1800, recording at time 0
blocks at time 0 and at time 1799, and frees at time 1800; remaining at time
600 is 1200. -/
example :
    can_send_alert (record_alert ⟨1800, fun _ => none⟩ 0 "SUI") 0 "SUI" = false ∧
    can_send_alert (record_alert ⟨1800, fun _ => none⟩ 0 "SUI") 1799 "SUI" = false ∧
    can_send_alert (record_alert ⟨1800, fun _ => none⟩ 0 "SUI") 1800 "SUI" = true ∧
    get_remaining_cooldown (record_alert ⟨1800, fun _ => none⟩ 0 "SUI") 600 "SUI" = 1200 := by
  norm_num [can_send_alert, record_alert, get_remaining_cooldown]

/-- C7: the funding check passes non-blockingly when no rate is cached; with
a cached rate it passes exactly when the rate exceeds the configured floor,
the squeeze flag holds exactly on the configured band, the crowded flag
exactly above the crowded threshold, and neither flag enters is_valid. -/
theorem check_funding_rate_spec (store : CandleCache) (cfg : Config)
    (altcoin : String) :
    (get_funding_rate store (py_upper altcoin ++ "USDT") = none →
      check_funding_rate store cfg altcoin =
        { rate := none, is_valid := true, squeeze_potential := false,
          crowded_longs := false }) ∧
    (∀ r, get_funding_rate store (py_upper altcoin ++ "USDT") = some r →
      (check_funding_rate store cfg altcoin).rate = some r ∧
      ((check_funding_rate store cfg altcoin).is_valid = true ↔
        cfg.fundingRateMin < r) ∧
      ((check_funding_rate store cfg altcoin).squeeze_potential = true ↔
        cfg.fundingRateSqueezeLow ≤ r ∧ r ≤ cfg.fundingRateSqueezeHigh) ∧
      ((check_funding_rate store cfg altcoin).crowded_longs = true ↔
        cfg.fundingRateCrowded < r)) := by
  constructor
  · intro h
    simp [check_funding_rate, h]
  · intro r h
    simp [check_funding_rate, h]

/-- C9: the latest-price lookup prefers the in-progress 1-minute bar's close,
falls back to the last closed 1-minute bar's close, and is absent when the
symbol has neither; it is a total function. -/
theorem get_current_price_spec (store : CandleCache) (symbol : String) :
    (∀ c, store.current_1m (py_upper symbol) = some c →
      get_current_price store symbol = some c.close) ∧
    (store.current_1m (py_upper symbol) = none →
      ∀ c, (store.candles_1m (py_upper symbol)).getLast? = some c →
        get_current_price store symbol = some c.close) ∧
    (store.current_1m (py_upper symbol) = none →
      store.candles_1m (py_upper symbol) = [] →
      get_current_price store symbol = none) := by
  refine ⟨?_, ?_, ?_⟩
  · intro c h
    simp [get_current_price, h]
  · intro h c hc
    simp [get_current_price, h, hc]
  · intro h hc
    simp [get_current_price, h, hc]

/-- C5: the underperformance spread is the asset's 1-hour change minus the
base 1-hour change (the supplied one, or the recomputed BTC change when none
is supplied), the flags compare the spread to the two configured thresholds,
and a symbol with fewer than 60 one-minute bars has 1-hour change 0. -/
theorem calculate_underperformance_spec (store : CandleCache) (cfg : Config)
    (altcoin : String) (btc_change : Option ℚ) :
    (calculate_underperformance store cfg altcoin btc_change).alt_change_1h =
      (calculate_price_changes store (py_upper altcoin ++ "USDT") 60).2.2 ∧
    (calculate_underperformance store cfg altcoin btc_change).btc_change_1h =
      btc_change.getD ((calculate_price_changes store "BTCUSDT" 60).2.2) ∧
    (calculate_underperformance store cfg altcoin btc_change).spread =
      (calculate_price_changes store (py_upper altcoin ++ "USDT") 60).2.2 -
      btc_change.getD ((calculate_price_changes store "BTCUSDT" 60).2.2) ∧
    ((calculate_underperformance store cfg altcoin btc_change).is_underperforming
        = true ↔
      (calculate_underperformance store cfg altcoin btc_change).spread ≤
        cfg.underperformanceThreshold) ∧
    ((calculate_underperformance store cfg altcoin btc_change).is_strong_signal
        = true ↔
      (calculate_underperformance store cfg altcoin btc_change).spread ≤
        cfg.underperformanceStrong) ∧
    (∀ sym, (get_candles_1m store sym (some 60)).length < 60 →
      (calculate_price_changes store sym 60).2.2 = 0) := by
  refine ⟨?_, ?_, ?_, ?_, ?_, ?_⟩
  · cases btc_change <;> simp [calculate_underperformance]
  · cases btc_change <;> simp [calculate_underperformance]
  · cases btc_change <;> simp [calculate_underperformance]
  · simp [calculate_underperformance]
  · simp [calculate_underperformance]
  · intro sym h
    simp [calculate_price_changes, h]

/-- Worked example from the spec: base 1-hour change -1.5, asset 1-hour
change -3.8 give spread -2.3, underperforming at the default threshold -1
and strong at -2.  The asset state has 60 one-minute bars moving from close
100 to close 96.2. -/
example :
    (calculate_underperformance
      { emptyCache with
        candles_1m := fun k =>
          if k = "SUIUSDT" then
            (List.replicate 59 (⟨0, 0, 0, 0, 100, 0, true⟩ : Candle)) ++
              [⟨0, 0, 0, 0, 96.2, 0, true⟩]
          else [] }
      defaultConfig "SUI" (some (-1.5))).spread = -2.3 ∧
    (calculate_underperformance
      { emptyCache with
        candles_1m := fun k =>
          if k = "SUIUSDT" then
            (List.replicate 59 (⟨0, 0, 0, 0, 100, 0, true⟩ : Candle)) ++
              [⟨0, 0, 0, 0, 96.2, 0, true⟩]
          else [] }
      defaultConfig "SUI" (some (-1.5))).is_underperforming = true ∧
    (calculate_underperformance
      { emptyCache with
        candles_1m := fun k =>
          if k = "SUIUSDT" then
            (List.replicate 59 (⟨0, 0, 0, 0, 100, 0, true⟩ : Candle)) ++
              [⟨0, 0, 0, 0, 96.2, 0, true⟩]
          else [] }
      defaultConfig "SUI" (some (-1.5))).is_strong_signal = true := by
  have hu : py_upper "SUI" = "SUI" := by decide
  have hu2 : py_upper "SUIUSDT" = "SUIUSDT" := by decide
  have hb : py_upper "BTCUSDT" = "BTCUSDT" := by decide
  have ha : ("SUI" ++ "USDT" : String) = "SUIUSDT" := rfl
  norm_num [calculate_underperformance, calculate_price_changes,
    get_candles_1m, py_slice_last, hu, hu2, hb, ha, close_ago,
    calculate_percentage_change, defaultConfig, List.replicate,
    List.getLast?_append, emptyCache]

/-- Length of a deque append under the capacity invariant. -/
theorem deque_append_length (C : ℕ) (l : List Candle) (c : Candle)
    (h : l.length ≤ C) : (deque_append C l c).length = min (l.length + 1) C := by
  simp only [deque_append, List.length_drop, List.length_append,
    List.length_cons, List.length_nil]
  omega

/-- Folding deque appends over a stream keeps exactly the suffix that fits. -/
theorem foldl_deque_append (C : ℕ) :
    ∀ (bs l : List Candle), l.length ≤ C →
      bs.foldl (deque_append C) l =
        (l ++ bs).drop (l.length + bs.length - C) := by
  intro bs
  induction bs with
  | nil =>
    intro l h
    simp only [List.foldl_nil, List.append_nil, List.length_nil, Nat.add_zero]
    rw [Nat.sub_eq_zero_of_le h, List.drop_zero]
  | cons b bs ih =>
    intro l h
    have hd : l.length + 1 - C ≤ (l ++ [b]).length := by
      simp only [List.length_append, List.length_cons, List.length_nil]
      omega
    have hlen : (deque_append C l b).length = min (l.length + 1) C :=
      deque_append_length C l b h
    rw [List.foldl_cons, ih (deque_append C l b) (by omega)]
    show ((l ++ [b]).drop (l.length + 1 - C) ++ bs).drop _ = _
    rw [← List.drop_append_of_le_length hd, List.drop_drop]
    rw [List.append_assoc]
    simp only [List.singleton_append, List.length_cons]
    congr 1
    rw [hlen]
    omega

/-- The cache state after writing a stream of 1-minute candles for one
symbol into an empty cache, in order (src/cache.py add_candle_1m). -/
def write_stream_1m (symbol : String) (bs : List Candle) : CandleCache :=
  bs.foldl (fun st c => add_candle_1m st symbol c) emptyCache

/-- The cache state after writing a stream of 15-minute candles for one
symbol into an empty cache, in order (src/cache.py add_candle_15m). -/
def write_stream_15m (symbol : String) (bs : List Candle) : CandleCache :=
  bs.foldl (fun st c => add_candle_15m st symbol c) emptyCache

/-- Writing closed candles only touches the symbol's own 1-minute buffer,
by the deque append. -/
theorem fold_add_candle_1m (symbol : String) :
    ∀ (bs : List Candle) (store : CandleCache),
      (∀ c ∈ bs, c.is_closed = true) →
      (bs.foldl (fun st c => add_candle_1m st symbol c) store).candles_1m
          (py_upper symbol) =
        bs.foldl (deque_append CANDLES_1M_BUFFER)
          (store.candles_1m (py_upper symbol)) := by
  intro bs
  induction bs with
  | nil => intro store _; rfl
  | cons b bs ih =>
    intro store h
    have hb : b.is_closed = true := h b (by simp)
    have hrest : ∀ c ∈ bs, c.is_closed = true := fun c hc => h c (by simp [hc])
    rw [List.foldl_cons, List.foldl_cons, ih _ hrest]
    simp [add_candle_1m, hb]

/-- Writing closed candles only touches the symbol's own 15-minute buffer. -/
theorem fold_add_candle_15m (symbol : String) :
    ∀ (bs : List Candle) (store : CandleCache),
      (∀ c ∈ bs, c.is_closed = true) →
      (bs.foldl (fun st c => add_candle_15m st symbol c) store).candles_15m
          (py_upper symbol) =
        bs.foldl (deque_append CANDLES_15M_BUFFER)
          (store.candles_15m (py_upper symbol)) := by
  intro bs
  induction bs with
  | nil => intro store _; rfl
  | cons b bs ih =>
    intro store h
    have hb : b.is_closed = true := h b (by simp)
    have hrest : ∀ c ∈ bs, c.is_closed = true := fun c hc => h c (by simp [hc])
    rw [List.foldl_cons, List.foldl_cons, ih _ hrest]
    simp [add_candle_15m, hb]

/-- C3: writing M closed bars in order leaves the 1-minute series (capacity
100) and the 15-minute series (capacity 50) with length min(M, C), and on
overflow the contents are exactly the last C bars inserted, in insertion
order. -/
theorem rolling_series_spec (symbol : String) (bs : List Candle)
    (hclosed : ∀ c ∈ bs, c.is_closed = true) :
    (get_candles_1m (write_stream_1m symbol bs) symbol none).length =
      min bs.length CANDLES_1M_BUFFER ∧
    (CANDLES_1M_BUFFER < bs.length →
      get_candles_1m (write_stream_1m symbol bs) symbol none =
        bs.drop (bs.length - CANDLES_1M_BUFFER)) ∧
    (get_candles_15m (write_stream_15m symbol bs) symbol none).length =
      min bs.length CANDLES_15M_BUFFER ∧
    (CANDLES_15M_BUFFER < bs.length →
      get_candles_15m (write_stream_15m symbol bs) symbol none =
        bs.drop (bs.length - CANDLES_15M_BUFFER)) := by
  have h1 : get_candles_1m (write_stream_1m symbol bs) symbol none =
      bs.drop (bs.length - CANDLES_1M_BUFFER) := by
    show (write_stream_1m symbol bs).candles_1m (py_upper symbol) = _
    rw [write_stream_1m, fold_add_candle_1m symbol bs emptyCache hclosed]
    rw [show emptyCache.candles_1m (py_upper symbol) = [] from rfl]
    rw [foldl_deque_append CANDLES_1M_BUFFER bs [] (by simp)]
    simp
  have h15 : get_candles_15m (write_stream_15m symbol bs) symbol none =
      bs.drop (bs.length - CANDLES_15M_BUFFER) := by
    show (write_stream_15m symbol bs).candles_15m (py_upper symbol) = _
    rw [write_stream_15m, fold_add_candle_15m symbol bs emptyCache hclosed]
    rw [show emptyCache.candles_15m (py_upper symbol) = [] from rfl]
    rw [foldl_deque_append CANDLES_15M_BUFFER bs [] (by simp)]
    simp
  refine ⟨?_, fun _ => h1, ?_, fun _ => h15⟩
  · rw [h1, List.length_drop]; omega
  · rw [h15, List.length_drop]; omega

/-- A stream of 101 closed bars for the witness of the rolling-series
property: distinct timestamps 0..100. -/
def witness_bars : List Candle :=
  (List.range 101).map (fun i => ⟨i, 0, 0, 0, 1, 0, true⟩)

/-- Witness for the rolling-series property at a concrete input: 101 closed
bars overflow the 1-minute buffer to its last 100 and the 15-minute buffer
to its last 50. -/
theorem rolling_series_witness :
    (∀ c ∈ witness_bars, c.is_closed = true) ∧
    ((get_candles_1m (write_stream_1m "BTCUSDT" witness_bars) "BTCUSDT"
        none).length = min witness_bars.length CANDLES_1M_BUFFER ∧
     (CANDLES_1M_BUFFER < witness_bars.length →
       get_candles_1m (write_stream_1m "BTCUSDT" witness_bars) "BTCUSDT"
         none = witness_bars.drop (witness_bars.length - CANDLES_1M_BUFFER)) ∧
     (get_candles_15m (write_stream_15m "BTCUSDT" witness_bars) "BTCUSDT"
        none).length = min witness_bars.length CANDLES_15M_BUFFER ∧
     (CANDLES_15M_BUFFER < witness_bars.length →
       get_candles_15m (write_stream_15m "BTCUSDT" witness_bars) "BTCUSDT"
         none = witness_bars.drop (witness_bars.length - CANDLES_15M_BUFFER))) :=
  ⟨by decide, rolling_series_spec "BTCUSDT" witness_bars (by decide)⟩

/-- A finite sum of nonnegative rationals vanishes only when every term
does. -/
theorem list_sum_eq_zero_iff (l : List ℚ) (h : ∀ x ∈ l, 0 ≤ x) :
    l.sum = 0 ↔ ∀ x ∈ l, x = 0 := by
  induction l with
  | nil => simp
  | cons a l ih =>
    have ha : 0 ≤ a := h a (by simp)
    have hl : ∀ x ∈ l, 0 ≤ x := fun x hx => h x (by simp [hx])
    have hs : 0 ≤ l.sum := List.sum_nonneg hl
    rw [List.sum_cons]
    constructor
    · intro hz
      have h1 : a = 0 ∧ l.sum = 0 := by
        constructor <;> linarith
      intro x hx
      rcases List.mem_cons.mp hx with rfl | hx
      · exact h1.1
      · exact (ih hl).mp h1.2 x hx
    · intro hz
      have h1 : a = 0 := hz a (by simp)
      have h2 : l.sum = 0 := (ih hl).mpr fun x hx => hz x (by simp [hx])
      rw [h1, h2, add_zero]

/-- One step of Wilder smoothing with period at least 2 stays nonnegative and
vanishes only when both the running average and the new value vanish. -/
theorem wilder_foldl_props (p : ℕ) (hp : 2 ≤ p) :
    ∀ (l : List ℚ), (∀ x ∈ l, 0 ≤ x) → ∀ a : ℚ, 0 ≤ a →
      0 ≤ l.foldl (fun avg v => (avg * ((p : ℚ) - 1) + v) / p) a ∧
      (l.foldl (fun avg v => (avg * ((p : ℚ) - 1) + v) / p) a = 0 ↔
        a = 0 ∧ ∀ x ∈ l, x = 0) := by
  have hq : (2 : ℚ) ≤ (p : ℚ) := by exact_mod_cast hp
  have hppos : (0 : ℚ) < (p : ℚ) := by linarith
  have hp1 : (0 : ℚ) < (p : ℚ) - 1 := by linarith
  intro l
  induction l with
  | nil =>
    intro _ a ha
    simp [ha]
  | cons x xs ih =>
    intro hl a ha
    have hx : 0 ≤ x := hl x (by simp)
    have hxs : ∀ y ∈ xs, 0 ≤ y := fun y hy => hl y (by simp [hy])
    have hnum : 0 ≤ a * ((p : ℚ) - 1) + x := by positivity
    have hstep : 0 ≤ (a * ((p : ℚ) - 1) + x) / p := by positivity
    have hzero : (a * ((p : ℚ) - 1) + x) / p = 0 ↔ a = 0 ∧ x = 0 := by
      rw [div_eq_zero_iff]
      constructor
      · rintro (hz | hz)
        · have h1 : 0 ≤ a * ((p : ℚ) - 1) := by positivity
          have h2 : a * ((p : ℚ) - 1) = 0 := by linarith
          have h3 : a = 0 := by
            rcases mul_eq_zero.mp h2 with h | h
            · exact h
            · linarith
          exact ⟨h3, by linarith [h2]⟩
        · linarith
      · rintro ⟨rfl, rfl⟩
        left; ring
    rw [List.foldl_cons]
    obtain ⟨hnn, hiff⟩ := ih hxs ((a * ((p : ℚ) - 1) + x) / p) hstep
    refine ⟨hnn, ?_⟩
    rw [hiff, hzero]
    constructor
    · rintro ⟨⟨rfl, rfl⟩, hall⟩
      exact ⟨rfl, by intro y hy; rcases List.mem_cons.mp hy with rfl | hy
                     exacts [rfl, hall y hy]⟩
    · rintro ⟨rfl, hall⟩
      exact ⟨⟨rfl, hall x (by simp)⟩, fun y hy => hall y (by simp [hy])⟩

/-- The Wilder average of a nonnegative series is nonnegative (period at
least 2). -/
theorem wilder_avg_nonneg (p : ℕ) (hp : 2 ≤ p) (vals : List ℚ)
    (h : ∀ x ∈ vals, 0 ≤ x) : 0 ≤ wilder_avg p vals := by
  have hq : (2 : ℚ) ≤ (p : ℚ) := by exact_mod_cast hp
  have hppos : (0 : ℚ) < (p : ℚ) := by linarith
  have htake : ∀ x ∈ vals.take p, 0 ≤ x :=
    fun x hx => h x (List.mem_of_mem_take hx)
  have hseed : 0 ≤ (vals.take p).sum / p := by
    have hs : 0 ≤ (vals.take p).sum := List.sum_nonneg htake
    positivity
  have hdrop : ∀ x ∈ vals.drop p, 0 ≤ x :=
    fun x hx => h x (List.mem_of_mem_drop hx)
  exact (wilder_foldl_props p hp (vals.drop p) hdrop _ hseed).1

/-- The Wilder average of a nonnegative series vanishes exactly when every
value of the series vanishes (period at least 2). -/
theorem wilder_avg_eq_zero_iff (p : ℕ) (hp : 2 ≤ p) (vals : List ℚ)
    (h : ∀ x ∈ vals, 0 ≤ x) :
    wilder_avg p vals = 0 ↔ ∀ x ∈ vals, x = 0 := by
  have hq : (2 : ℚ) ≤ (p : ℚ) := by exact_mod_cast hp
  have hppos : (0 : ℚ) < (p : ℚ) := by linarith
  have htake : ∀ x ∈ vals.take p, 0 ≤ x :=
    fun x hx => h x (List.mem_of_mem_take hx)
  have hdrop : ∀ x ∈ vals.drop p, 0 ≤ x :=
    fun x hx => h x (List.mem_of_mem_drop hx)
  have hseed : 0 ≤ (vals.take p).sum / p := by
    have hs : 0 ≤ (vals.take p).sum := List.sum_nonneg htake
    positivity
  rw [wilder_avg,
    (wilder_foldl_props p hp (vals.drop p) hdrop _ hseed).2]
  have hseedz : (vals.take p).sum / p = 0 ↔ ∀ x ∈ vals.take p, x = 0 := by
    rw [div_eq_zero_iff, list_sum_eq_zero_iff _ htake]
    constructor
    · rintro (hz | hz)
      · exact hz
      · linarith
    · intro hz; left; exact hz
  rw [hseedz]
  constructor
  · rintro ⟨h1, h2⟩ x hx
    rw [← List.take_append_drop p vals] at hx
    rcases List.mem_append.mp hx with hx | hx
    · exact h1 x hx
    · exact h2 x hx
  · intro hz
    exact ⟨fun x hx => hz x (List.mem_of_mem_take hx),
      fun x hx => hz x (List.mem_of_mem_drop hx)⟩

/-- The loss series of the RSI vanishes exactly when every delta is
nonnegative. -/
theorem losses_vanish_iff (changes : List ℚ) :
    (∀ x ∈ changes.map (fun c => |min 0 c|), x = 0) ↔
      ∀ d ∈ changes, 0 ≤ d := by
  constructor
  · intro h d hd
    have h2 : |min 0 d| = 0 := h _ (List.mem_map_of_mem _ hd)
    have h3 : min 0 d = 0 := abs_eq_zero.mp h2
    exact min_eq_left_iff.mp h3
  · intro h x hx
    obtain ⟨c, hc, rfl⟩ := List.mem_map.mp hx
    have hc0 : 0 ≤ c := h c hc
    simp [min_eq_left hc0]

/-- C2 (amended): calculate_rsi is absent exactly below period + 1 closes;
with enough closes and period at least 2 it returns exactly 100 iff every
delta is nonnegative (final average loss zero), and otherwise returns
100 - 100 / (1 + avgGain / avgLoss) over the Wilder averages seeded with the
plain mean of the first period values. -/
theorem calculate_rsi_spec (closes : List ℚ) (period : ℕ) :
    (calculate_rsi closes period = none ↔ closes.length < period + 1) ∧
    (2 ≤ period → period + 1 ≤ closes.length →
      (calculate_rsi closes period = some 100 ↔
        ∀ d ∈ rsi_changes closes, 0 ≤ d)) ∧
    (2 ≤ period → period + 1 ≤ closes.length →
      wilder_avg period ((rsi_changes closes).map (fun c => |min 0 c|)) ≠ 0 →
      calculate_rsi closes period =
        some (100 - 100 /
          (1 + wilder_avg period ((rsi_changes closes).map (fun c => max 0 c)) /
            wilder_avg period ((rsi_changes closes).map (fun c => |min 0 c|))))) := by
  refine ⟨?_, ?_, ?_⟩
  · by_cases h : closes.length < period + 1
    · simp [calculate_rsi, h]
    · simp only [calculate_rsi, if_neg h]
      constructor
      · intro hc
        split at hc <;> simp_all
      · intro hc
        exact absurd hc h
  · intro hp hlen
    have hnot : ¬ closes.length < period + 1 := by omega
    have hlnn : ∀ x ∈ (rsi_changes closes).map (fun c => |min 0 c|), 0 ≤ x := by
      intro x hx
      obtain ⟨c, _, rfl⟩ := List.mem_map.mp hx
      positivity
    have hgnn : ∀ x ∈ (rsi_changes closes).map (fun c => max 0 c), 0 ≤ x := by
      intro x hx
      obtain ⟨c, _, rfl⟩ := List.mem_map.mp hx
      exact le_max_left 0 c
    simp only [calculate_rsi, if_neg hnot]
    by_cases hz :
        wilder_avg period ((rsi_changes closes).map (fun c => |min 0 c|)) = 0
    · rw [if_pos hz]
      simp only [Option.some.injEq, true_iff, iff_true]
      exact (losses_vanish_iff _).mp
        ((wilder_avg_eq_zero_iff period hp _ hlnn).mp hz)
    · rw [if_neg hz]
      have hl0 : 0 ≤ wilder_avg period
          ((rsi_changes closes).map (fun c => |min 0 c|)) :=
        wilder_avg_nonneg period hp _ hlnn
      have hg0 : 0 ≤ wilder_avg period
          ((rsi_changes closes).map (fun c => max 0 c)) :=
        wilder_avg_nonneg period hp _ hgnn
      have hlpos : 0 < wilder_avg period
          ((rsi_changes closes).map (fun c => |min 0 c|)) :=
        lt_of_le_of_ne hl0 (Ne.symm hz)
      have hden : (0 : ℚ) < 1 +
          wilder_avg period ((rsi_changes closes).map (fun c => max 0 c)) /
          wilder_avg period ((rsi_changes closes).map (fun c => |min 0 c|)) := by
        positivity
      constructor
      · intro heq
        have h100 : 100 - 100 /
            (1 + wilder_avg period ((rsi_changes closes).map (fun c => max 0 c)) /
              wilder_avg period ((rsi_changes closes).map (fun c => |min 0 c|)))
            = 100 := Option.some.inj heq
        have hfrac : (100 : ℚ) /
            (1 + wilder_avg period ((rsi_changes closes).map (fun c => max 0 c)) /
              wilder_avg period ((rsi_changes closes).map (fun c => |min 0 c|)))
            = 0 := by linarith
        rcases div_eq_zero_iff.mp hfrac with h | h
        · norm_num at h
        · linarith
      · intro hall
        exact absurd
          ((wilder_avg_eq_zero_iff period hp _ hlnn).mpr
            ((losses_vanish_iff _).mpr hall)) hz
  · intro hp hlen hnz
    have hnot : ¬ closes.length < period + 1 := by omega
    simp only [calculate_rsi, if_neg hnot, if_neg hnz]

/-- C2 counterexample: with period 1 the Wilder recurrence forgets all
history, so calculate_rsi [2, 1, 2] 1 is exactly 100 although the window
contains the negative delta -1. -/
theorem calculate_rsi_period_one_counterexample :
    calculate_rsi [2, 1, 2] 1 = some 100 ∧
    (-1 : ℚ) ∈ rsi_changes [2, 1, 2] ∧ (-1 : ℚ) < 0 := by
  refine ⟨?_, ?_, by norm_num⟩
  · norm_num [calculate_rsi, rsi_changes, wilder_avg]
  · norm_num [rsi_changes]

/-- Witness to the amended RSI property at period 2: closes [1, 2, 3] have
all deltas nonnegative and RSI exactly 100. -/
theorem calculate_rsi_spec_witness :
    calculate_rsi [1, 2, 3] 2 = some 100 ↔
      ∀ d ∈ rsi_changes [1, 2, 3], 0 ≤ d :=
  (calculate_rsi_spec [1, 2, 3] 2).2.1 (by norm_num) (by norm_num)

/-- A reconnect entered at or beyond the attempt cap gives up at once. -/
theorem reconnect_run_capped (connect_ok : ℕ → Bool) (attempts : ℕ)
    (h : MAX_RECONNECT_ATTEMPTS ≤ attempts) :
    reconnect_run connect_ok attempts = (false, attempts, []) := by
  rw [reconnect_run, dif_pos h]

/-- Unfolding of one reconnect round below the cap. -/
theorem reconnect_run_step (connect_ok : ℕ → Bool) (attempts : ℕ)
    (h : ¬ MAX_RECONNECT_ATTEMPTS ≤ attempts) :
    reconnect_run connect_ok attempts =
      if connect_ok (attempts + 1) then
        (true, 0,
          [min (INITIAL_RECONNECT_DELAY * 2 ^ attempts) MAX_RECONNECT_DELAY])
      else
        ((reconnect_run connect_ok (attempts + 1)).1,
          (reconnect_run connect_ok (attempts + 1)).2.1,
          min (INITIAL_RECONNECT_DELAY * 2 ^ attempts) MAX_RECONNECT_DELAY ::
            (reconnect_run connect_ok (attempts + 1)).2.2) := by
  rw [reconnect_run, dif_neg h]
  simp only [Nat.add_sub_cancel]

/-- A run that reports success has reset the attempt counter to 0. -/
theorem reconnect_run_success_resets (connect_ok : ℕ → Bool) :
    ∀ (n attempts : ℕ), MAX_RECONNECT_ATTEMPTS - attempts ≤ n →
      (reconnect_run connect_ok attempts).1 = true →
      (reconnect_run connect_ok attempts).2.1 = 0 := by
  intro n
  induction n with
  | zero =>
    intro attempts hn htrue
    have hcap : MAX_RECONNECT_ATTEMPTS ≤ attempts := by omega
    rw [reconnect_run_capped connect_ok attempts hcap] at htrue
    simp at htrue
  | succ n ih =>
    intro attempts hn htrue
    by_cases hcap : MAX_RECONNECT_ATTEMPTS ≤ attempts
    · rw [reconnect_run_capped connect_ok attempts hcap] at htrue
      simp at htrue
    · rw [reconnect_run_step connect_ok attempts hcap] at htrue ⊢
      by_cases hok : connect_ok (attempts + 1) = true
      · simp [hok]
      · simp only [Bool.not_eq_true] at hok
        simp only [hok, if_neg Bool.false_ne_true] at htrue ⊢
        exact ih (attempts + 1) (by omega) htrue

/-- Every delay slept by a reconnect run follows the capped exponential
backoff schedule. -/
theorem reconnect_run_delays (connect_ok : ℕ → Bool) :
    ∀ (n attempts : ℕ), MAX_RECONNECT_ATTEMPTS - attempts ≤ n →
      ∀ i, i < (reconnect_run connect_ok attempts).2.2.length →
        (reconnect_run connect_ok attempts).2.2.getD i 0 =
          min (INITIAL_RECONNECT_DELAY * 2 ^ (attempts + i))
            MAX_RECONNECT_DELAY := by
  intro n
  induction n with
  | zero =>
    intro attempts hn i hi
    have hcap : MAX_RECONNECT_ATTEMPTS ≤ attempts := by omega
    rw [reconnect_run_capped connect_ok attempts hcap] at hi
    simp at hi
  | succ n ih =>
    intro attempts hn i hi
    by_cases hcap : MAX_RECONNECT_ATTEMPTS ≤ attempts
    · rw [reconnect_run_capped connect_ok attempts hcap] at hi
      simp at hi
    · rw [reconnect_run_step connect_ok attempts hcap] at hi ⊢
      by_cases hok : connect_ok (attempts + 1) = true
      · simp only [hok, if_pos] at hi ⊢
        simp only [List.length_cons, List.length_nil] at hi
        have hi0 : i = 0 := by omega
        subst hi0
        simp
      · simp only [Bool.not_eq_true] at hok
        simp only [hok, if_neg Bool.false_ne_true] at hi ⊢
        match i with
        | 0 => simp
        | j + 1 =>
          simp only [List.length_cons, Nat.add_lt_add_iff_right] at hi
          have := ih (attempts + 1) (by omega) j hi
          simpa [Nat.add_assoc, Nat.add_comm 1 j] using this

/-- A run whose every attempt fails consumes exactly the remaining attempts
up to the cap, ends with the counter at the cap, and reports failure. -/
theorem reconnect_run_all_fail (connect_ok : ℕ → Bool)
    (hfail : ∀ k, connect_ok k = false) :
    ∀ (n attempts : ℕ), MAX_RECONNECT_ATTEMPTS - attempts ≤ n →
      attempts ≤ MAX_RECONNECT_ATTEMPTS →
      (reconnect_run connect_ok attempts).1 = false ∧
      (reconnect_run connect_ok attempts).2.1 = MAX_RECONNECT_ATTEMPTS ∧
      (reconnect_run connect_ok attempts).2.2.length =
        MAX_RECONNECT_ATTEMPTS - attempts := by
  intro n
  induction n with
  | zero =>
    intro attempts hn hle
    have hcap : attempts = MAX_RECONNECT_ATTEMPTS := by omega
    subst hcap
    rw [reconnect_run_capped connect_ok _ (le_refl _)]
    simp
  | succ n ih =>
    intro attempts hn hle
    by_cases hcap : MAX_RECONNECT_ATTEMPTS ≤ attempts
    · have heq : attempts = MAX_RECONNECT_ATTEMPTS := by omega
      subst heq
      rw [reconnect_run_capped connect_ok _ (le_refl _)]
      simp
    · rw [reconnect_run_step connect_ok attempts hcap]
      simp only [hfail (attempts + 1), if_neg Bool.false_ne_true]
      obtain ⟨h1, h2, h3⟩ := ih (attempts + 1) (by omega) (by omega)
      refine ⟨h1, h2, ?_⟩
      simp only [List.length_cons, h3]
      omega

/-- C8: the k-th retry of a reconnect sequence waits
min(initialDelay * 2 ^ (attempt - 1), maxDelay) with the counter starting at
1 (exponent attempts + i for the i-th delay of a run entered at `attempts`)
and incrementing per failed retry; entering at the cap of 10 attempts gives
up permanently; a successful reconnect resets the counter to 0; and a run
whose every attempt fails performs exactly 10 delayed attempts and reports
failure. -/
theorem reconnect_spec (connect_ok : ℕ → Bool) (attempts : ℕ) :
    ((reconnect_run connect_ok attempts).1 = true →
      (reconnect_run connect_ok attempts).2.1 = 0) ∧
    (∀ i, i < (reconnect_run connect_ok attempts).2.2.length →
      (reconnect_run connect_ok attempts).2.2.getD i 0 =
        min (INITIAL_RECONNECT_DELAY * 2 ^ (attempts + i))
          MAX_RECONNECT_DELAY) ∧
    (MAX_RECONNECT_ATTEMPTS ≤ attempts →
      reconnect_run connect_ok attempts = (false, attempts, [])) ∧
    ((∀ k, connect_ok k = false) →
      (reconnect_run connect_ok 0).1 = false ∧
      (reconnect_run connect_ok 0).2.1 = MAX_RECONNECT_ATTEMPTS ∧
      (reconnect_run connect_ok 0).2.2.length = MAX_RECONNECT_ATTEMPTS) := by
  refine ⟨?_, ?_, ?_, ?_⟩
  · exact reconnect_run_success_resets connect_ok
      (MAX_RECONNECT_ATTEMPTS - attempts) attempts (le_refl _)
  · exact reconnect_run_delays connect_ok
      (MAX_RECONNECT_ATTEMPTS - attempts) attempts (le_refl _)
  · exact reconnect_run_capped connect_ok attempts
  · intro hfail
    have h := reconnect_run_all_fail connect_ok hfail
      MAX_RECONNECT_ATTEMPTS 0 (by omega) (by omega)
    simpa using h

-- Backoff schedule at a concrete input: with the third attempt succeeding
-- a fresh run sleeps delays 1, 2, 4 and reports success with the counter
-- reset to 0.
example : reconnect_run (fun k => decide (k = 3)) 0 = (true, 0, [1, 2, 4]) := by
  rw [reconnect_run_step _ 0 (by norm_num [MAX_RECONNECT_ATTEMPTS]),
    reconnect_run_step _ 1 (by norm_num [MAX_RECONNECT_ATTEMPTS]),
    reconnect_run_step _ 2 (by norm_num [MAX_RECONNECT_ATTEMPTS])]
  norm_num [INITIAL_RECONNECT_DELAY, MAX_RECONNECT_DELAY]

/-- The ratio stage can only return normally on its insufficient-data path,
whose flags are both false (the populated path raises, see analyze_ratio). -/
theorem analyze_ratio_ok_flags (store : CandleCache) (cfg : Config)
    (altcoin : String) (r : RatioAnalysis)
    (h : analyze_ratio store cfg altcoin = Except.ok r) :
    r.is_oversold = false ∧ r.near_24h_low = false := by
  rw [analyze_ratio] at h
  cases hc : get_current_ratio store altcoin <;> rw [hc] at h
  · have hr : insufficient_ratio altcoin = r := by
      injection h
    rw [← hr]
    exact ⟨rfl, rfl⟩
  · exact absurd h (by simp)

/-- When the idealized ratio stage passes, the asset's current price is
present: both flags require a current ratio, which requires the price. -/
theorem ratio_pass_price_present (store : CandleCache) (cfg : Config)
    (altcoin : String)
    (h : (analyze_ratio_pure store cfg altcoin).is_oversold = true ∨
         (analyze_ratio_pure store cfg altcoin).near_24h_low = true) :
    (get_current_price store (py_upper altcoin ++ "USDT")).isSome = true := by
  cases hp : get_current_price store (py_upper altcoin ++ "USDT") with
  | some a => rfl
  | none =>
    have hc : get_current_ratio store altcoin = none := by
      rw [get_current_ratio, hp]
    have hpure : analyze_ratio_pure store cfg altcoin =
        insufficient_ratio altcoin := by
      rw [analyze_ratio_pure, hc]
    rw [hpure] at h
    rcases h with h | h <;> exact absurd h (by simp [insufficient_ratio])

/-- Passing all six blocking stages forces the asset's current price to be
present (the ratio stage already read it). -/
theorem stages_pass_price_present (store : CandleCache) (cfg : Config)
    (cd : CooldownManager) (now : ℚ) (altcoin : String)
    (h : all_stages_pass store cfg cd now altcoin = true) :
    (alt_current_price store (py_upper altcoin)).isSome = true := by
  simp only [all_stages_pass, Bool.and_eq_true, Bool.or_eq_true] at h
  have hratio := h.1.2
  rw [alt_current_price]
  exact ratio_pass_price_present store cfg (py_upper altcoin) hratio

/-- check_signal can only return "no signal" or raise: the only ratio-stage
results that return normally carry false flags, so the pipeline never gets
past the ratio gate. -/
theorem check_signal_dichotomy (store : CandleCache) (cfg : Config)
    (cd : CooldownManager) (now : ℚ) (liq : Option LiquidationCheck)
    (altcoin : String) :
    check_signal store cfg cd now liq altcoin = Except.ok none ∨
    check_signal store cfg cd now liq altcoin =
      Except.error PyError.valueError := by
  simp only [check_signal]
  by_cases h1 : can_send_alert cd now (py_upper altcoin) = true
  case neg => left; simp [h1]
  simp only [h1, if_true]
  by_cases h2 : (get_btc_status store cfg).has_sufficient_dip = true
  case neg => left; simp [h2]
  simp only [h2, if_true]
  by_cases h3 : (get_btc_status store cfg).is_stabilizing = true
  case neg => left; simp [h3]
  simp only [h3, if_true]
  by_cases h4 : (calculate_underperformance store cfg (py_upper altcoin)
      (some (get_btc_status store cfg).change_1h)).is_underperforming = true
  case neg => left; simp [h4]
  simp only [h4, if_true]
  cases han : analyze_ratio store cfg (py_upper altcoin) with
  | error e =>
    cases e
    right
    rfl
  | ok r =>
    obtain ⟨ho, hn⟩ := analyze_ratio_ok_flags store cfg (py_upper altcoin) r han
    left
    simp [ho, hn]

/-- A concrete cache state: five closed BTC 1-minute bars whose last five
lows are [10, 9, 11, 8, 8.5] (stabilizing) with last close 99, one closed
SUI 1-minute bar with close 96, and one 15-minute bar each (SUI close 96,
BTC close 99), no in-progress bars and no funding rates. -/
def exampleStore : CandleCache :=
  { candles_1m := fun s =>
      if s = "BTCUSDT" then
        [⟨0, 0, 0, 10, 100, 0, true⟩, ⟨1, 0, 0, 9, 100, 0, true⟩,
         ⟨2, 0, 0, 11, 100, 0, true⟩, ⟨3, 0, 0, 8, 100, 0, true⟩,
         ⟨4, 0, 0, 8.5, 99, 0, true⟩]
      else if s = "SUIUSDT" then [⟨0, 0, 0, 5, 96, 0, true⟩]
      else []
    candles_15m := fun s =>
      if s = "BTCUSDT" then [⟨0, 0, 0, 99, 99, 0, true⟩]
      else if s = "SUIUSDT" then [⟨0, 0, 0, 96, 96, 0, true⟩]
      else []
    current_1m := fun _ => none
    current_15m := fun _ => none
    funding_rates := fun _ => none }

/-- A configuration under which exampleStore passes every blocking stage:
no required BTC drop and a generous underperformance threshold (both are
environment-configurable scalars). -/
def exampleConfig : Config :=
  { btcMinDrop1h := 0, underperformanceThreshold := 10 }

/-- A cooldown manager with no recorded alerts. -/
def exampleCooldown : CooldownManager := ⟨1800, fun _ => none⟩

/-- At the example state every blocking stage of the pipeline passes. -/
theorem example_stages_pass :
    all_stages_pass exampleStore exampleConfig exampleCooldown 0 "SUI" = true := by
  have hu : py_upper "SUI" = "SUI" := by decide
  have hu2 : py_upper "SUIUSDT" = "SUIUSDT" := by decide
  have hb : py_upper "BTCUSDT" = "BTCUSDT" := by decide
  have ha : ("SUI" ++ "USDT" : String) = "SUIUSDT" := rfl
  have hne : ("SUIUSDT" : String) ≠ "BTCUSDT" := by decide
  have h99 : ¬((99 : ℚ) = 0) := by norm_num
  norm_num [all_stages_pass, can_send_alert, get_btc_status, get_candles_1m,
    py_slice_last, calculate_btc_changes, calculate_price_changes, close_ago,
    calculate_percentage_change, is_btc_stabilizing, has_sufficient_btc_dip,
    calculate_underperformance, analyze_ratio_pure, analyze_ratio_result,
    get_current_ratio, get_current_price, calculate_ratio,
    calculate_ratio_series, get_closes_15m, get_candles_15m, get_ratio_rsi,
    get_ratio_sma, calculate_sma, get_ratio_24h_low, py_min, is_near_24h_low,
    check_funding_rate, get_funding_rate, exampleStore, exampleConfig,
    exampleCooldown, hu, hu2, hb, ha, hne, h99, RSI_PERIOD, SMA_PERIOD,
    calculate_rsi, List.foldl, List.filterMap_cons, List.filterMap_nil]

/-- At the example state check_signal raises instead of emitting a signal. -/
theorem example_check_signal_raises :
    check_signal exampleStore exampleConfig exampleCooldown 0 none "SUI" =
      Except.error PyError.valueError := by
  have hu : py_upper "SUI" = "SUI" := by decide
  have hu2 : py_upper "SUIUSDT" = "SUIUSDT" := by decide
  have hb : py_upper "BTCUSDT" = "BTCUSDT" := by decide
  have ha : ("SUI" ++ "USDT" : String) = "SUIUSDT" := rfl
  have hne : ("SUIUSDT" : String) ≠ "BTCUSDT" := by decide
  norm_num [check_signal, can_send_alert, get_btc_status, get_candles_1m,
    py_slice_last, calculate_btc_changes, calculate_price_changes, close_ago,
    calculate_percentage_change, is_btc_stabilizing, has_sufficient_btc_dip,
    calculate_underperformance, analyze_ratio, get_current_ratio,
    get_current_price, calculate_ratio, exampleStore, exampleConfig,
    exampleCooldown, hu, hu2, hb, ha, hne, List.foldl]

/-- C1 (failed by the code): check_signal never emits a Signal.  Every
normal return is "no signal", because the ratio stage raises ValueError on
its populated path (the malformed f-string format spec in its debug log, see
analyze_ratio); and at a concrete state that passes every blocking stage
check_signal raises instead of emitting the Signal the claim describes.
The level arithmetic of calculate_levels itself matches the claim. -/
theorem check_signal_code_bug :
    (∀ (store : CandleCache) (cfg : Config) (cd : CooldownManager) (now : ℚ)
        (liq : Option LiquidationCheck) (altcoin : String),
      check_signal store cfg cd now liq altcoin = Except.ok none ∨
      check_signal store cfg cd now liq altcoin =
        Except.error PyError.valueError) ∧
    all_stages_pass exampleStore exampleConfig exampleCooldown 0 "SUI" = true ∧
    check_signal exampleStore exampleConfig exampleCooldown 0 none "SUI" =
      Except.error PyError.valueError ∧
    (∀ price : ℚ,
      (calculate_levels price).entry_high = price ∧
      (calculate_levels price).entry_low = price * 0.997 ∧
      (calculate_levels price).stop_loss = price * 0.997 * 0.995 ∧
      (calculate_levels price).target_1 = price * 1.01 ∧
      (calculate_levels price).target_2 = price * 1.015) :=
  ⟨check_signal_dichotomy, example_stages_pass, example_check_signal_raises,
    fun _ => ⟨rfl, rfl, rfl, rfl, rfl⟩⟩

/-- C10 counterexample: there is no store state in which every blocking
stage passes and the asset's current price is absent — the ratio stage can
only pass after reading that very price. -/
theorem no_stages_pass_without_price :
    (∃ (store : CandleCache) (cfg : Config) (cd : CooldownManager) (now : ℚ)
        (altcoin : String),
      all_stages_pass store cfg cd now altcoin = true ∧
      alt_current_price store (py_upper altcoin) = none) ↔ False := by
  constructor
  · rintro ⟨store, cfg, cd, now, altcoin, hpass, hnone⟩
    have hsome := stages_pass_price_present store cfg cd now altcoin hpass
    rw [hnone] at hsome
    exact absurd hsome (by simp)
  · exact False.elim

/-- C10 (amended): whenever every blocking stage passes, the asset's current
price is present, so the None return at the price fetch of check_signal is
unreachable from a single frozen state. -/
theorem stages_pass_price_available (store : CandleCache) (cfg : Config)
    (cd : CooldownManager) (now : ℚ) (altcoin : String)
    (h : all_stages_pass store cfg cd now altcoin = true) :
    (alt_current_price store (py_upper altcoin)).isSome = true :=
  stages_pass_price_present store cfg cd now altcoin h

/-- Witness for the amended C10 at the concrete example state: all stages
pass there and the price is indeed present. -/
theorem stages_pass_price_available_witness :
    (alt_current_price exampleStore (py_upper "SUI")).isSome = true :=
  stages_pass_price_available exampleStore exampleConfig exampleCooldown 0
    "SUI" example_stages_pass
